import Mathlib

/-
Verification of the savings_manager_cli client against its design document.

The development shallowly embeds the Python code of
src/savings_manager_cli/api_consumers.py (authoritative variant; the older
src/src/api_consumers.py variant implements the same algorithms under
snake_case JSON keys).  Python lists become Lean lists, Python ints become
Int, raised typer.BadParameter exceptions become the error case of Except,
and the network calls issued by a consumer are recorded as an explicit
request trace.
-/

namespace SavingsManagerCli

/-- One entry of the GET /api/prioritylist response, as consumed by
UpdatePriorityListApiConsumer._build_patch_data: a dict with keys
"moneyboxId" and "priority". -/
structure PriorityEntry where
  moneyboxId : Int
  priority : Int
deriving DecidableEq, Repr

/-- The MoveDirection StrEnum of custom_types.py (values "up" and "down"). -/
inductive MoveDirection where
  | up
  | down
deriving DecidableEq, Repr

/-- The sort key comparison used by the planner: Python
sorted(prioritylist, key=lambda item: item["priority"]) compares the
"priority" values. -/
def prioLE (a b : PriorityEntry) : Bool := a.priority ≤ b.priority

/-- Python sorted(...) is a stable mergesort; List.mergeSort is the same. -/
def sortByPriority (l : List PriorityEntry) : List PriorityEntry :=
  l.mergeSort prioLE

/-- Python list.insert(i, x) semantics: a negative index counts from the end
of the list, and an out-of-range index is clamped, so an index past the end
appends and a very negative index prepends. -/
def pyInsert {α : Type} (l : List α) (i : Int) (x : α) : List α :=
  let n : Int := l.length
  let j : Int := if i < 0 then max 0 (i + n) else min i n
  l.insertIdx j.toNat x

/-- The new zero-based index computed by _build_patch_data:
max(0, old_index - move_steps) when moving up,
min(len(priority_sorted_list) - 1, old_index + move_steps) when moving down.
len is the length of the full sorted list, before the entry is popped. -/
def computeNewIndex (dir : MoveDirection) (oldIndex : Nat) (len : Nat)
    (steps : Int) : Int :=
  match dir with
  | .up => max 0 ((oldIndex : Int) - steps)
  | .down => min ((len : Int) - 1) ((oldIndex : Int) + steps)

/-- The typer.BadParameter message raised when the for-loop over the sorted
list finds no entry whose moneyboxId equals the requested one. -/
def badParameterMessage (mId : Int) : String :=
  "Moneybox " ++ toString mId ++ " does not exist or can't be moved " ++
    "(e.g. the Overflow Moneybox with priority 0)."

/-- Placeholder entry for the total List.getD access; the planner only reads
an index that findIdx? has already certified to be in range. -/
def defaultEntry : PriorityEntry := { moneyboxId := 0, priority := 0 }

/-- The renumbering loop of _build_patch_data:
for i, priority in enumerate(priority_sorted_list): priority["priority"] = i + 1,
generalised over the starting value of the counter. -/
def renumberFrom (k : Int) : List PriorityEntry → List PriorityEntry
  | [] => []
  | e :: rest => { e with priority := k } :: renumberFrom (k + 1) rest

/-- Renumber every entry's priority to its 1-based position in the list. -/
def renumber (l : List PriorityEntry) : List PriorityEntry := renumberFrom 1 l

/-- The final dict comprehension of _build_patch_data, projecting each entry
onto its "moneyboxId" and "priority" keys. -/
def toPayload (l : List PriorityEntry) : List PriorityEntry :=
  l.map (fun p => { moneyboxId := p.moneyboxId, priority := p.priority })

/-- Shallow embedding of UpdatePriorityListApiConsumer._build_patch_data,
parameterised by the prioritylist returned by the inner
GetPriorityListApiConsumer read.  Steps: stable-sort by priority, locate the
first entry with the requested moneyboxId (typer.BadParameter if absent),
compute the clamped new index, pop the entry and reinsert it at the new
index, renumber priorities to 1..N, and emit the payload list. -/
def buildPatchData (prioritylist : List PriorityEntry) (moneyboxId : Int)
    (moveDirection : MoveDirection) (moveSteps : Int) :
    Except String (List PriorityEntry) :=
  let prioritySortedList := sortByPriority prioritylist
  match prioritySortedList.findIdx? (fun item => item.moneyboxId == moneyboxId) with
  | none => .error (badParameterMessage moneyboxId)
  | some oldIndex =>
      let newIndex :=
        computeNewIndex moveDirection oldIndex prioritySortedList.length moveSteps
      let popped := prioritySortedList.getD oldIndex defaultEntry
      let moved := pyInsert (prioritySortedList.eraseIdx oldIndex) newIndex popped
      .ok (toPayload (renumber moved))

/-- The network requests a run of UpdatePriorityListApiConsumer can issue. -/
inductive PriorityListRequest where
  | getPrioritylist
  | patchPrioritylist (payload : List PriorityEntry)
deriving DecidableEq, Repr

/-- Request trace of running UpdatePriorityListApiConsumer, given the
prioritylist the embedded GET /api/prioritylist read returns.  The consumer
constructor invokes _build_patch_data (which itself issues the GET) before
the PATCH request is even constructed; a raised BadParameter therefore
propagates before any write, so the trace then contains only the read. -/
def updatePriorityListRun (fetched : List PriorityEntry) (moneyboxId : Int)
    (moveDirection : MoveDirection) (moveSteps : Int) :
    List PriorityListRequest × Except String (List PriorityEntry) :=
  match buildPatchData fetched moneyboxId moveDirection moveSteps with
  | .error e => ([.getPrioritylist], .error e)
  | .ok payload => ([.getPrioritylist, .patchPrioritylist payload], .ok payload)

/-- The moneyboxId values of a priority list, in order. -/
def ids (l : List PriorityEntry) : List Int := l.map PriorityEntry.moneyboxId

/-- A priority list in the canonical shape the server maintains for movable
moneyboxes: each entry's priority equals its 1-based position, which is
exactly being a fixed point of the renumbering loop. -/
def canonical (l : List PriorityEntry) : Prop := renumber l = l

/-- The sparse PATCH /api/moneybox/:id body built by
PatchMoneyboxApiConsumer.__init__.  Each key is present only when assigned;
savingsTarget distinguishes present-with-null (some none) from
present-with-value (some (some v)) from absent (none). -/
structure MoneyboxPatchData where
  name : Option String
  savingsAmount : Option Int
  savingsTarget : Option (Option Int)
deriving DecidableEq, Repr

/-- Shallow embedding of PatchMoneyboxApiConsumer.__init__ up to the call of
the base-class constructor.  The guard
if clear_savings_target and savings_target >= 0 raises typer.BadParameter
before patch_data is assembled; afterwards the body gains "name" when the
string is truthy, "savingsAmount" and "savingsTarget" when non-negative, and
clear_savings_target finally overwrites "savingsTarget" with null. -/
def patchMoneyboxInit (name : String) (savingsAmount : Int)
    (savingsTarget : Int) (clearSavingsTarget : Bool) :
    Except String MoneyboxPatchData :=
  if clearSavingsTarget && decide (0 ≤ savingsTarget) then
    .error "You can't set savings target and clear it at same time."
  else
    let d0 : MoneyboxPatchData :=
      { name := none, savingsAmount := none, savingsTarget := none }
    let d1 := if name.isEmpty then d0 else { d0 with name := some name }
    let d2 := if 0 ≤ savingsAmount
      then { d1 with savingsAmount := some savingsAmount } else d1
    let d3 := if 0 ≤ savingsTarget
      then { d2 with savingsTarget := some (some savingsTarget) } else d2
    let d4 := if clearSavingsTarget
      then { d3 with savingsTarget := some none } else d3
    .ok d4

/-- The network requests a run of PatchMoneyboxApiConsumer can issue. -/
inductive MoneyboxRequest where
  | patchMoneybox (moneyboxId : Int) (payload : MoneyboxPatchData)
deriving DecidableEq, Repr

/-- Request trace of running PatchMoneyboxApiConsumer: the constructor builds
the body (raising BadParameter first if the guard fires, before
super().__init__ ever constructs the request), and run() then issues the
single PATCH. -/
def patchMoneyboxRun (moneyboxId : Int) (name : String) (savingsAmount : Int)
    (savingsTarget : Int) (clearSavingsTarget : Bool) :
    List MoneyboxRequest × Except String MoneyboxPatchData :=
  match patchMoneyboxInit name savingsAmount savingsTarget clearSavingsTarget with
  | .error e => ([], .error e)
  | .ok d => ([.patchMoneybox moneyboxId d], .ok d)

/-- One entry of the GET /api/moneybox/:id/transactions response, with the
fields GetMoneyboxTransactionsApiConsumer.__str__ reads: the "createdAt"
sort key plus the rendered payload fields. -/
structure TransactionLog where
  createdAt : Int
  amount : Int
  description : String
deriving DecidableEq, Repr

/-- The sort key comparison of
content["transactionLogs"].sort(key=lambda item: item["createdAt"]). -/
def logLE (a b : TransactionLog) : Bool := a.createdAt ≤ b.createdAt

/-- Python list.sort(...) is a stable mergesort; List.mergeSort matches. -/
def sortTransactionLogs (logs : List TransactionLog) : List TransactionLog :=
  logs.mergeSort logLE

/-- Python slice l[-n:] for an arbitrary integer n: the start index -n is
shifted by the length when negative (clamped below at 0) and clamped above
at the length, and the slice keeps everything from there on. -/
def pyTailSlice {α : Type} (l : List α) (n : Int) : List α :=
  let len : Int := l.length
  let start : Int := -n
  let start2 : Int := if start < 0 then max 0 (start + len) else min start len
  l.drop start2.toNat

/-- Shallow embedding of the ordering and truncation performed by
GetMoneyboxTransactionsApiConsumer.__str__: sort ascending by createdAt,
then, when n was supplied, keep the slice [-n:] of the sorted list. -/
def renderedTransactionLogs (logs : List TransactionLog) (n : Option Int) :
    List TransactionLog :=
  let sortedLogs := sortTransactionLogs logs
  match n with
  | none => sortedLogs
  | some k => pyTailSlice sortedLogs k

/-! Helper lemmas about the embedded operations. -/

theorem toPayload_eq (l : List PriorityEntry) : toPayload l = l := by
  unfold toPayload
  induction l with
  | nil => rfl
  | cons a t ih => simp [ih]

theorem renumberFrom_length (l : List PriorityEntry) :
    ∀ k : Int, (renumberFrom k l).length = l.length := by
  induction l with
  | nil => intro k; rfl
  | cons a t ih => intro k; simp [renumberFrom, ih]

theorem ids_renumberFrom (l : List PriorityEntry) :
    ∀ k : Int, ids (renumberFrom k l) = ids l := by
  induction l with
  | nil => intro k; rfl
  | cons a t ih => intro k; simp [renumberFrom, ids] at ih ⊢; exact ih (k + 1)

theorem map_priority_renumberFrom (l : List PriorityEntry) :
    ∀ k : Int, (renumberFrom k l).map PriorityEntry.priority
      = (List.range l.length).map (fun i : Nat => k + (i : Int)) := by
  induction l with
  | nil => intro k; rfl
  | cons a t ih =>
      intro k
      show k :: (renumberFrom (k + 1) t).map PriorityEntry.priority = _
      rw [ih (k + 1), List.length_cons, List.range_succ_eq_map, List.map_cons,
        List.map_map]
      congr 1
      · simp
      · refine List.map_congr_left ?_
        intro i hi
        simp only [Function.comp_apply]
        push_cast
        ring

theorem renumberFrom_renumberFrom (l : List PriorityEntry) :
    ∀ k : Int, renumberFrom k (renumberFrom k l) = renumberFrom k l := by
  induction l with
  | nil => intro k; rfl
  | cons a t ih => intro k; simp [renumberFrom, ih (k + 1)]

theorem renumberFrom_eq_of_ids_eq (x : List PriorityEntry) :
    ∀ (y : List PriorityEntry) (k : Int), ids x = ids y →
      renumberFrom k x = renumberFrom k y := by
  induction x with
  | nil =>
      intro y k h
      cases y with
      | nil => rfl
      | cons b u => simp [ids] at h
  | cons a t ih =>
      intro y k h
      cases y with
      | nil => simp [ids] at h
      | cons b u =>
          simp only [ids, List.map_cons, List.cons.injEq] at h
          simp [renumberFrom, h.1, ih u (k + 1) h.2]

theorem insertIdx_perm_cons {α : Type} (x : α) :
    ∀ (m : Nat) (l : List α), m ≤ l.length →
      List.Perm (l.insertIdx m x) (x :: l) := by
  intro m
  induction m with
  | zero => intro l h; simp
  | succ m ih =>
      intro l h
      cases l with
      | nil => simp at h
      | cons a t =>
          have h2 : m ≤ t.length := by simpa using h
          rw [List.insertIdx_succ_cons]
          exact ((ih t h2).cons a).trans (List.Perm.swap x a t)

theorem getD_cons_eraseIdx_perm {α : Type} (d : α) :
    ∀ (l : List α) (i : Nat), i < l.length →
      List.Perm (l.getD i d :: l.eraseIdx i) l := by
  intro l
  induction l with
  | nil => intro i h; simp at h
  | cons a t ih =>
      intro i h
      cases i with
      | zero => simp
      | succ i =>
          have h2 : i < t.length := by simpa using h
          simp only [List.getD_cons_succ, List.eraseIdx_cons_succ]
          exact (List.Perm.swap a (t.getD i d) (t.eraseIdx i)).trans
            ((ih i h2).cons a)

theorem pyInsert_perm {α : Type} (l : List α) (i : Int) (x : α) :
    List.Perm (pyInsert l i x) (x :: l) := by
  simp only [pyInsert]
  apply insertIdx_perm_cons
  split <;> omega

theorem pyInsert_eq_insertIdx {α : Type} (l : List α) (i : Int) (x : α)
    (h0 : 0 ≤ i) (h1 : i ≤ l.length) :
    pyInsert l i x = l.insertIdx i.toNat x := by
  simp only [pyInsert]
  have hj : (if i < 0 then max 0 (i + (l.length : Int))
      else min i (l.length : Int)) = i := by
    split <;> omega
  rw [hj]

theorem insertIdx_getD_eraseIdx {α : Type} (d : α) :
    ∀ (l : List α) (i : Nat), i < l.length →
      (l.eraseIdx i).insertIdx i (l.getD i d) = l := by
  intro l
  induction l with
  | nil => intro i h; simp at h
  | cons a t ih =>
      intro i h
      cases i with
      | zero => simp
      | succ i =>
          have h2 : i < t.length := by simpa using h
          simp only [List.eraseIdx_cons_succ, List.getD_cons_succ,
            List.insertIdx_succ_cons]
          rw [ih i h2]

theorem insertIdx_eq_take_cons_drop {α : Type} (x : α) :
    ∀ (m : Nat) (l : List α), m ≤ l.length →
      l.insertIdx m x = l.take m ++ x :: l.drop m := by
  intro m
  induction m with
  | zero => intro l h; simp
  | succ m ih =>
      intro l h
      cases l with
      | nil => simp at h
      | cons a t =>
          have h2 : m ≤ t.length := by simpa using h
          simp [List.insertIdx_succ_cons, ih t h2]

theorem ids_eraseIdx (l : List PriorityEntry) :
    ∀ i : Nat, ids (l.eraseIdx i) = (ids l).eraseIdx i := by
  induction l with
  | nil => intro i; rfl
  | cons a t ih =>
      intro i
      cases i with
      | zero => simp [ids]
      | succ i => simp [ids] at ih ⊢; exact ih i

theorem ids_insertIdx (x : PriorityEntry) :
    ∀ (i : Nat) (l : List PriorityEntry),
      ids (l.insertIdx i x) = (ids l).insertIdx i x.moneyboxId := by
  intro i
  induction i with
  | zero => intro l; simp [ids]
  | succ i ih =>
      intro l
      cases l with
      | nil => simp [ids]
      | cons a t => simp [List.insertIdx_succ_cons, ids] at ih ⊢; exact ih t

theorem ids_getD (l : List PriorityEntry) :
    ∀ i : Nat, (l.getD i defaultEntry).moneyboxId = (ids l).getD i 0 := by
  induction l with
  | nil => intro i; rfl
  | cons a t ih =>
      intro i
      cases i with
      | zero => simp [ids]
      | succ i => simp [ids] at ih ⊢; exact ih i

theorem ids_length (l : List PriorityEntry) : (ids l).length = l.length := by
  simp [ids]

theorem canonical_getElem_priority {l : List PriorityEntry} (hc : canonical l)
    (i : Nat) (h : i < l.length) :
    l[i].priority = 1 + (i : Int) := by
  have hm := map_priority_renumberFrom l 1
  rw [show renumberFrom 1 l = l from hc] at hm
  have h2 := congrArg (fun s => s[i]?) hm
  simp only [List.getElem?_map, List.getElem?_range, h,
    List.getElem?_eq_getElem, if_pos] at h2
  simpa using h2

theorem sortByPriority_of_canonical {l : List PriorityEntry}
    (hc : canonical l) : sortByPriority l = l := by
  apply List.mergeSort_of_sorted
  rw [List.pairwise_iff_getElem]
  intro i j hi hj hij
  have hpi := canonical_getElem_priority hc i hi
  have hpj := canonical_getElem_priority hc j hj
  simp only [prioLE, hpi, hpj, decide_eq_true_eq]
  omega

theorem canonical_renumber (l : List PriorityEntry) :
    canonical (renumber l) :=
  renumberFrom_renumberFrom l 1

theorem prioLE_trans (a b c : PriorityEntry) :
    prioLE a b → prioLE b c → prioLE a c := by
  simp only [prioLE, decide_eq_true_eq]
  omega

theorem prioLE_total (a b : PriorityEntry) : prioLE a b || prioLE b a := by
  simp only [prioLE]
  by_cases h : a.priority ≤ b.priority
  · simp [h]
  · simp [le_of_not_le h]

theorem findIdx_head_self (a : PriorityEntry) (t : List PriorityEntry) :
    (a :: t).findIdx? (fun e => e.moneyboxId == a.moneyboxId) = some 0 := by
  simp [List.findIdx?_cons]

theorem findIdx_of_nodup (l : List PriorityEntry) (hnd : (ids l).Nodup)
    (i : Nat) (hi : i < l.length) :
    l.findIdx? (fun e => e.moneyboxId == l[i].moneyboxId) = some i := by
  rw [List.findIdx?_eq_some_iff_getElem]
  refine ⟨hi, by simp, ?_⟩
  intro j hji
  have hj : j < l.length := hji.trans hi
  have hj2 : j < (ids l).length := by simpa [ids_length] using hj
  have hi2 : i < (ids l).length := by simpa [ids_length] using hi
  have hne : (ids l)[j] ≠ (ids l)[i] := by
    intro heq
    have := (List.Nodup.getElem_inj_iff hnd).1 heq
    omega
  simp only [ids, List.getElem_map] at hne
  simp [hne]

theorem buildPatchData_of_findIdx (l : List PriorityEntry) (mId : Int)
    (hsort : sortByPriority l = l) (i : Nat)
    (hfind : l.findIdx? (fun e => e.moneyboxId == mId) = some i)
    (dir : MoveDirection) (s : Int) :
    buildPatchData l mId dir s
      = .ok (renumber (pyInsert (l.eraseIdx i)
          (computeNewIndex dir i l.length s) (l.getD i defaultEntry))) := by
  simp only [buildPatchData, hsort, hfind, toPayload_eq]

theorem ids_renumber (l : List PriorityEntry) : ids (renumber l) = ids l :=
  ids_renumberFrom l 1

theorem renumber_length (l : List PriorityEntry) :
    (renumber l).length = l.length :=
  renumberFrom_length l 1

theorem map_priority_renumber (l : List PriorityEntry) :
    (renumber l).map PriorityEntry.priority
      = (List.range l.length).map (fun i : Nat => 1 + (i : Int)) :=
  map_priority_renumberFrom l 1

theorem buildPatchData_ok_of_mem (l : List PriorityEntry) (mId : Int)
    (dir : MoveDirection) (s : Int) (h : mId ∈ ids l) :
    ∃ payload, buildPatchData l mId dir s = .ok payload ∧
      List.Perm (ids payload) (ids l) ∧
      payload.map PriorityEntry.priority
        = (List.range l.length).map (fun i : Nat => 1 + (i : Int)) ∧
      payload.length = l.length := by
  have hperm : List.Perm (sortByPriority l) l := List.mergeSort_perm l prioLE
  have hmem : ∃ e, e ∈ sortByPriority l ∧ (e.moneyboxId == mId) = true := by
    obtain ⟨e, he, hid⟩ := List.mem_map.1 h
    exact ⟨e, hperm.mem_iff.2 he, by simp [hid]⟩
  have hfind := List.findIdx?_eq_some_of_exists hmem
  have hi : (sortByPriority l).findIdx (fun e => e.moneyboxId == mId)
      < (sortByPriority l).length :=
    (List.findIdx?_eq_some_iff_findIdx_eq.1 hfind).1
  simp only [buildPatchData, hfind, toPayload_eq]
  have hmv : List.Perm
      (pyInsert ((sortByPriority l).eraseIdx
          ((sortByPriority l).findIdx (fun e => e.moneyboxId == mId)))
        (computeNewIndex dir
          ((sortByPriority l).findIdx (fun e => e.moneyboxId == mId))
          (sortByPriority l).length s)
        ((sortByPriority l).getD
          ((sortByPriority l).findIdx (fun e => e.moneyboxId == mId))
          defaultEntry))
      l :=
    ((pyInsert_perm _ _ _).trans
      (getD_cons_eraseIdx_perm defaultEntry _ _ hi)).trans hperm
  refine ⟨_, rfl, ?_, ?_, ?_⟩
  · rw [ids_renumber]
    exact List.Perm.map PriorityEntry.moneyboxId hmv
  · rw [map_priority_renumber, hmv.length_eq]
  · rw [renumber_length, hmv.length_eq]

theorem pyTailSlice_zero {α : Type} (l : List α) : pyTailSlice l 0 = l := by
  simp only [pyTailSlice]
  have h : (if -(0 : Int) < 0 then max 0 (-(0 : Int) + (l.length : Int))
      else min (-(0 : Int)) ((l.length : Int))).toNat = 0 := by
    rw [if_neg (by omega)]
    omega
  rw [h, List.drop_zero]

theorem pyTailSlice_pos {α : Type} (l : List α) (n : Int) (hn : 1 ≤ n) :
    pyTailSlice l n = l.drop (l.length - n.toNat) := by
  simp only [pyTailSlice]
  have h : (if -n < 0 then max 0 (-n + (l.length : Int))
      else min (-n) ((l.length : Int))).toNat = l.length - n.toNat := by
    rw [if_pos (by omega)]
    omega
  rw [h]

/-! Theorems settling the claims. -/

/-- C1: for every fetched priority list of length N ≥ 1, every target
identifier present in it, every direction and every non-negative step count,
the planner succeeds and the submitted payload contains exactly the entries
from the original read (its identifier multiset is a permutation of the
fetched one, none added or dropped), with priorities exactly the contiguous
sequence 1..N, each entry's priority equal to its 1-based position in the
output list. -/
theorem c1_reorder_is_total_reordering (l : List PriorityEntry) (mId : Int)
    (dir : MoveDirection) (s : Int) (hne : l ≠ []) (hmem : mId ∈ ids l)
    (hs : 0 ≤ s) :
    ∃ payload, buildPatchData l mId dir s = .ok payload ∧
      List.Perm (ids payload) (ids l) ∧
      payload.map PriorityEntry.priority
        = (List.range l.length).map (fun i : Nat => 1 + (i : Int)) := by
  obtain ⟨p, h1, h2, h3, h4⟩ := buildPatchData_ok_of_mem l mId dir s hmem
  exact ⟨p, h1, h2, h3⟩

theorem c1_reorder_is_total_reordering_witness :
    ([{ moneyboxId := 1, priority := 1 }, { moneyboxId := 2, priority := 2 }]
        : List PriorityEntry) ≠ [] ∧
    (2 : Int) ∈ ids [{ moneyboxId := 1, priority := 1 },
      { moneyboxId := 2, priority := 2 }] ∧
    (0 : Int) ≤ 1 ∧
    (∃ payload,
      buildPatchData [{ moneyboxId := 1, priority := 1 },
        { moneyboxId := 2, priority := 2 }] 2 MoveDirection.up 1
          = .ok payload ∧
      List.Perm (ids payload) (ids [{ moneyboxId := 1, priority := 1 },
        { moneyboxId := 2, priority := 2 }]) ∧
      payload.map PriorityEntry.priority
        = (List.range
            ([{ moneyboxId := 1, priority := 1 },
              { moneyboxId := 2, priority := 2 }]
              : List PriorityEntry).length).map (fun i : Nat => 1 + (i : Int))) :=
  ⟨by decide, by decide, by decide,
    c1_reorder_is_total_reordering _ 2 MoveDirection.up 1 (by decide)
      (by decide) (by decide)⟩

/-- C10: for every integer step count, negative ones included, the planner
still terminates with a payload holding exactly the fetched entries with
contiguous positional priorities 1..N; an insertion index past the end of
the list appends (Python list.insert clamps), so no out-of-range failure
occurs. -/
theorem c10_any_step_count_safe (l : List PriorityEntry) (mId : Int)
    (dir : MoveDirection) (s : Int) (hmem : mId ∈ ids l) :
    ∃ payload, buildPatchData l mId dir s = .ok payload ∧
      List.Perm (ids payload) (ids l) ∧
      payload.map PriorityEntry.priority
        = (List.range l.length).map (fun i : Nat => 1 + (i : Int)) ∧
      payload.length = l.length :=
  buildPatchData_ok_of_mem l mId dir s hmem

theorem c10_any_step_count_safe_witness :
    (1 : Int) ∈ ids [{ moneyboxId := 1, priority := 1 },
      { moneyboxId := 2, priority := 2 }] ∧
    (∃ payload,
      buildPatchData [{ moneyboxId := 1, priority := 1 },
        { moneyboxId := 2, priority := 2 }] 1 MoveDirection.up (-7)
          = .ok payload ∧
      List.Perm (ids payload) (ids [{ moneyboxId := 1, priority := 1 },
        { moneyboxId := 2, priority := 2 }]) ∧
      payload.map PriorityEntry.priority
        = (List.range
            ([{ moneyboxId := 1, priority := 1 },
              { moneyboxId := 2, priority := 2 }]
              : List PriorityEntry).length).map (fun i : Nat => 1 + (i : Int)) ∧
      payload.length
        = ([{ moneyboxId := 1, priority := 1 },
            { moneyboxId := 2, priority := 2 }]
            : List PriorityEntry).length) :=
  ⟨by decide, c10_any_step_count_safe _ 1 MoveDirection.up (-7) (by decide)⟩

/-- C2 counterexample: the code treats a priority-0 entry like any other.
With fetched list [(id 7, priority 0), (id 1, priority 1)], naming id 7 as
the target succeeds (no invalid-argument error), moves the entry, and
renumbers it to priority 2; and even when another entry is the target, the
priority-0 entry is renumbered to 1. -/
theorem c2_overflow_counterexample :
    buildPatchData [{ moneyboxId := 7, priority := 0 },
        { moneyboxId := 1, priority := 1 }] 7 MoveDirection.down 1
      = .ok [{ moneyboxId := 1, priority := 1 },
          { moneyboxId := 7, priority := 2 }] ∧
    buildPatchData [{ moneyboxId := 7, priority := 0 },
        { moneyboxId := 1, priority := 1 },
        { moneyboxId := 2, priority := 2 }] 1 MoveDirection.down 1
      = .ok [{ moneyboxId := 7, priority := 1 },
          { moneyboxId := 2, priority := 2 },
          { moneyboxId := 1, priority := 3 }] := by
  constructor
  · have hs : sortByPriority [{ moneyboxId := 7, priority := 0 },
        { moneyboxId := 1, priority := 1 }]
        = [{ moneyboxId := 7, priority := 0 },
            { moneyboxId := 1, priority := 1 }] :=
      List.mergeSort_of_sorted (by decide)
    rw [buildPatchData_of_findIdx _ 7 hs 0 (by decide) MoveDirection.down 1]
    rfl
  · have hs : sortByPriority [{ moneyboxId := 7, priority := 0 },
        { moneyboxId := 1, priority := 1 },
        { moneyboxId := 2, priority := 2 }]
        = [{ moneyboxId := 7, priority := 0 },
            { moneyboxId := 1, priority := 1 },
            { moneyboxId := 2, priority := 2 }] :=
      List.mergeSort_of_sorted (by decide)
    rw [buildPatchData_of_findIdx _ 1 hs 1 (by decide) MoveDirection.down 1]
    rfl

/-- C2 amended: the planner applies no special treatment to the overflow
moneybox.  If the fetched list contains an entry with priority 0, that entry
participates in the reordering like any other: naming its identifier as the
move target succeeds rather than failing with the invalid-argument error,
and the submitted payload renumbers every entry (including the priority-0
one) to priorities at least 1.  Exclusion of the overflow moneybox holds
only when the server omits it from the fetched priority list; the
invalid-argument error fires exactly for identifiers absent from that
list. -/
theorem c2_no_overflow_special_case (l : List PriorityEntry)
    (e : PriorityEntry) (he : e ∈ l) (h0 : e.priority = 0)
    (dir : MoveDirection) (s : Int) :
    ∃ payload, buildPatchData l e.moneyboxId dir s = .ok payload ∧
      ∀ p ∈ payload, 1 ≤ p.priority := by
  have hmem : e.moneyboxId ∈ ids l := by
    simpa [ids] using List.mem_map_of_mem PriorityEntry.moneyboxId he
  obtain ⟨payload, h1, h2, h3, h4⟩ :=
    buildPatchData_ok_of_mem l e.moneyboxId dir s hmem
  refine ⟨payload, h1, ?_⟩
  intro p hp
  have hmm : p.priority ∈ payload.map PriorityEntry.priority :=
    List.mem_map_of_mem PriorityEntry.priority hp
  rw [h3] at hmm
  obtain ⟨i, hi, hip⟩ := List.mem_map.1 hmm
  omega

theorem c2_no_overflow_special_case_witness :
    ({ moneyboxId := 7, priority := 0 } : PriorityEntry)
        ∈ [{ moneyboxId := 7, priority := 0 },
            { moneyboxId := 1, priority := 1 }] ∧
    ({ moneyboxId := 7, priority := 0 } : PriorityEntry).priority = 0 ∧
    (∃ payload,
      buildPatchData [{ moneyboxId := 7, priority := 0 },
          { moneyboxId := 1, priority := 1 }]
        ({ moneyboxId := 7, priority := 0 } : PriorityEntry).moneyboxId
        MoveDirection.down 1 = .ok payload ∧
      ∀ p ∈ payload, 1 ≤ p.priority) :=
  ⟨by decide, by decide,
    c2_no_overflow_special_case _ _ (by decide) (by decide)
      MoveDirection.down 1⟩

/-- C6: for a target identifier absent from the fetched priority list the
run fails with the BadParameter error whose message names the identifier,
and the only network request in the trace is the prior priority-list read;
no PATCH write is issued. -/
theorem c6_missing_target_no_write (fetched : List PriorityEntry) (mId : Int)
    (dir : MoveDirection) (s : Int) (h : mId ∉ ids fetched) :
    updatePriorityListRun fetched mId dir s
      = ([PriorityListRequest.getPrioritylist],
          .error (badParameterMessage mId)) ∧
    ∃ rest, badParameterMessage mId = "Moneybox " ++ toString mId ++ rest := by
  have hnone : (sortByPriority fetched).findIdx?
      (fun e => e.moneyboxId == mId) = none := by
    rw [List.findIdx?_eq_none_iff]
    intro x hx
    rw [beq_eq_false_iff_ne]
    intro hxid
    apply h
    have hxl : x ∈ fetched := by
      simpa [sortByPriority] using hx
    rw [← hxid]
    simpa [ids] using List.mem_map_of_mem PriorityEntry.moneyboxId hxl
  have hb : buildPatchData fetched mId dir s
      = .error (badParameterMessage mId) := by
    simp only [buildPatchData, hnone]
  constructor
  · simp only [updatePriorityListRun, hb]
  · exact ⟨" does not exist or can't be moved "
        ++ "(e.g. the Overflow Moneybox with priority 0).",
      String.append_assoc _ _ _⟩

theorem c6_missing_target_no_write_witness :
    (5 : Int) ∉ ids [{ moneyboxId := 1, priority := 1 }] ∧
    (updatePriorityListRun [{ moneyboxId := 1, priority := 1 }] 5
        MoveDirection.up 1
      = ([PriorityListRequest.getPrioritylist],
          .error (badParameterMessage 5)) ∧
    ∃ rest, badParameterMessage 5 = "Moneybox " ++ toString (5 : Int) ++ rest) :=
  ⟨by decide,
    c6_missing_target_no_write [{ moneyboxId := 1, priority := 1 }] 5
      MoveDirection.up 1 (by decide)⟩

/-- C7: a moneybox update call that both requests clearing the savings
target and supplies a concrete non-negative savings-target value is rejected
with the usage error before any HTTP request is constructed or sent: the
request trace is empty. -/
theorem c7_clear_and_set_conflict_rejected (mId : Int) (name : String)
    (savingsAmount savingsTarget : Int) (hst : 0 ≤ savingsTarget) :
    patchMoneyboxRun mId name savingsAmount savingsTarget true
      = ([], .error "You can't set savings target and clear it at same time.") := by
  have hinit : patchMoneyboxInit name savingsAmount savingsTarget true
      = .error "You can't set savings target and clear it at same time." := by
    simp [patchMoneyboxInit, hst]
  simp [patchMoneyboxRun, hinit]

theorem c7_clear_and_set_conflict_rejected_witness :
    (0 : Int) ≤ 500 ∧
    patchMoneyboxRun 4 "box" (-1) 500 true
      = ([], .error "You can't set savings target and clear it at same time.") :=
  ⟨by decide, c7_clear_and_set_conflict_rejected 4 "box" (-1) 500 (by decide)⟩

/-- C9: requesting the last n = 0 transaction-log entries renders the whole
sorted log rather than zero entries, because the Python tail slice with a
count of zero selects the entire list. -/
theorem c9_zero_count_renders_whole_log (logs : List TransactionLog) :
    renderedTransactionLogs logs (some 0) = sortTransactionLogs logs ∧
    (renderedTransactionLogs logs (some 0)).length = logs.length := by
  have h : renderedTransactionLogs logs (some 0) = sortTransactionLogs logs := by
    simp only [renderedTransactionLogs]
    exact pyTailSlice_zero _
  refine ⟨h, ?_⟩
  rw [h]
  simp [sortTransactionLogs]

theorem logLE_trans (a b c : TransactionLog) :
    logLE a b → logLE b c → logLE a c := by
  simp only [logLE, decide_eq_true_eq]
  omega

theorem logLE_total (a b : TransactionLog) : logLE a b || logLE b a := by
  simp only [logLE]
  by_cases h : a.createdAt ≤ b.createdAt
  · simp [h]
  · simp [le_of_not_le h]

/-- C8: for every requested count n ≥ 1 the transaction-log renderer first
sorts all entries ascending by creation timestamp (the sort output is an
ascending-sorted permutation of the response) and only then truncates to
the last n entries of the sorted list; concretely, timestamps [3, 1, 2]
render in order [1, 2, 3], and n = 1 keeps only the entry with timestamp 3
(truncation happens after the sort, on the tail). -/
theorem c8_sort_then_tail_truncate (logs : List TransactionLog) (n : Int)
    (hn : 1 ≤ n) :
    List.Perm (sortTransactionLogs logs) logs ∧
    List.Pairwise (fun a b => a.createdAt ≤ b.createdAt)
      (sortTransactionLogs logs) ∧
    renderedTransactionLogs logs (some n)
      = (sortTransactionLogs logs).drop (logs.length - n.toNat) ∧
    (renderedTransactionLogs logs (some n)).length = min n.toNat logs.length ∧
    renderedTransactionLogs
        [{ createdAt := 3, amount := 0, description := "" },
         { createdAt := 1, amount := 0, description := "" },
         { createdAt := 2, amount := 0, description := "" }] none
      = [{ createdAt := 1, amount := 0, description := "" },
         { createdAt := 2, amount := 0, description := "" },
         { createdAt := 3, amount := 0, description := "" }] ∧
    renderedTransactionLogs
        [{ createdAt := 3, amount := 0, description := "" },
         { createdAt := 1, amount := 0, description := "" },
         { createdAt := 2, amount := 0, description := "" }] (some 1)
      = [{ createdAt := 3, amount := 0, description := "" }] := by
  have hlen : (sortTransactionLogs logs).length = logs.length := by
    simp [sortTransactionLogs]
  have hdrop : renderedTransactionLogs logs (some n)
      = (sortTransactionLogs logs).drop (logs.length - n.toNat) := by
    simp only [renderedTransactionLogs]
    rw [pyTailSlice_pos _ n hn, hlen]
  have hsc : sortTransactionLogs
      [{ createdAt := 3, amount := 0, description := "" },
       { createdAt := 1, amount := 0, description := "" },
       { createdAt := 2, amount := 0, description := "" }]
      = [{ createdAt := 1, amount := 0, description := "" },
         { createdAt := 2, amount := 0, description := "" },
         { createdAt := 3, amount := 0, description := "" }] := by
    simp [sortTransactionLogs, List.mergeSort, List.splitInTwo, List.splitAt,
      List.splitAt.go, List.merge, logLE]
  refine ⟨List.mergeSort_perm logs logLE, ?_, hdrop, ?_, ?_, ?_⟩
  · exact (List.sorted_mergeSort logLE_trans logLE_total logs).imp
      (fun hab => by simpa [logLE] using hab)
  · rw [hdrop, List.length_drop, hlen]
    omega
  · simp [renderedTransactionLogs, hsc]
  · simp only [renderedTransactionLogs, hsc]
    rfl

theorem c8_sort_then_tail_truncate_witness :
    (1 : Int) ≤ 1 ∧
    (List.Perm (sortTransactionLogs []) [] ∧
    List.Pairwise (fun a b => a.createdAt ≤ b.createdAt)
      (sortTransactionLogs []) ∧
    renderedTransactionLogs [] (some 1)
      = (sortTransactionLogs []).drop
          (([] : List TransactionLog).length - (1 : Int).toNat) ∧
    (renderedTransactionLogs [] (some 1)).length
      = min (1 : Int).toNat ([] : List TransactionLog).length ∧
    renderedTransactionLogs
        [{ createdAt := 3, amount := 0, description := "" },
         { createdAt := 1, amount := 0, description := "" },
         { createdAt := 2, amount := 0, description := "" }] none
      = [{ createdAt := 1, amount := 0, description := "" },
         { createdAt := 2, amount := 0, description := "" },
         { createdAt := 3, amount := 0, description := "" }] ∧
    renderedTransactionLogs
        [{ createdAt := 3, amount := 0, description := "" },
         { createdAt := 1, amount := 0, description := "" },
         { createdAt := 2, amount := 0, description := "" }] (some 1)
      = [{ createdAt := 3, amount := 0, description := "" }]) :=
  ⟨by decide, c8_sort_then_tail_truncate [] 1 (by decide)⟩

theorem getD_eq_getElem_of_lt {α : Type} (l : List α) (d : α) (i : Nat)
    (h : i < l.length) : l.getD i d = l[i] := by
  simp [List.getD_eq_getElem?_getD, List.getElem?_eq_getElem h]

theorem renumber_eq_of_ids_eq (x y : List PriorityEntry) (h : ids x = ids y) :
    renumber x = renumber y :=
  renumberFrom_eq_of_ids_eq x y 1 h

theorem buildPatchData_restore (l : List PriorityEntry) (hc : canonical l)
    (i : Nat) (hi : i < l.length)
    (hf : l.findIdx? (fun e => e.moneyboxId == (l[i]).moneyboxId) = some i)
    (dir : MoveDirection) (s : Int)
    (hidx : computeNewIndex dir i l.length s = (i : Int)) :
    buildPatchData l ((l[i]).moneyboxId) dir s = .ok l := by
  rw [buildPatchData_of_findIdx l _ (sortByPriority_of_canonical hc) i hf dir s,
    hidx]
  rw [pyInsert_eq_insertIdx _ _ _ (by omega)
    (by rw [List.length_eraseIdx_of_lt hi]; push_cast; omega)]
  have hti : ((i : Int)).toNat = i := by omega
  rw [hti, insertIdx_getD_eraseIdx defaultEntry l i hi,
    show renumber l = l from hc]

/-- C3: with a non-negative step count the planner's new index, max(0, i - s)
moving up and min(len - 1, i + s) moving down, is always clamped into the
valid range 0..len-1 rather than erroring or wrapping; consequently, on a
canonical list, moving the first entry further up by any step count, moving
the last entry further down by any step count, or moving any entry by zero
steps resubmits the list unchanged. -/
theorem c3_clamped_index_and_boundary_noops (l : List PriorityEntry)
    (hc : canonical l) (hnd : (ids l).Nodup) (hne : l ≠ [])
    (s : Int) (hs : 0 ≤ s) :
    (∀ (dir : MoveDirection) (i : Nat), i < l.length →
      0 ≤ computeNewIndex dir i l.length s ∧
      computeNewIndex dir i l.length s ≤ (l.length : Int) - 1) ∧
    buildPatchData l ((l.head hne).moneyboxId) MoveDirection.up s = .ok l ∧
    buildPatchData l ((l.getLast hne).moneyboxId) MoveDirection.down s
      = .ok l ∧
    (∀ (mId : Int) (dir : MoveDirection), mId ∈ ids l →
      buildPatchData l mId dir 0 = .ok l) := by
  have hlp : 0 < l.length := List.length_pos.2 hne
  refine ⟨?_, ?_, ?_, ?_⟩
  · intro dir i hi
    cases dir with
    | up => simp only [computeNewIndex]; omega
    | down => simp only [computeNewIndex]; omega
  · cases l with
    | nil => exact absurd rfl hne
    | cons a t =>
        have hf : (a :: t).findIdx?
            (fun e => e.moneyboxId == ((a :: t)[0]).moneyboxId)
            = some 0 := by
          simpa using findIdx_head_self a t
        have hres := buildPatchData_restore (a :: t) hc 0 (by simp) hf
          MoveDirection.up s (by simp only [computeNewIndex]; omega)
        simpa using hres
  · have hil : l.length - 1 < l.length := by omega
    have hgl : l.getLast hne = l[l.length - 1] :=
      List.getLast_eq_getElem l hne
    have hf := findIdx_of_nodup l hnd (l.length - 1) hil
    rw [hgl]
    exact buildPatchData_restore l hc (l.length - 1) hil hf
      MoveDirection.down s
      (by simp only [computeNewIndex]; omega)
  · intro mId dir hmem
    obtain ⟨e, he, heid⟩ := List.mem_map.1 (by simpa [ids] using hmem)
    obtain ⟨i, hi, hie⟩ := List.mem_iff_getElem.1 he
    have hidm : (l[i]).moneyboxId = mId := by rw [hie, heid]
    have hf := findIdx_of_nodup l hnd i hi
    rw [← hidm]
    apply buildPatchData_restore l hc i hi hf dir 0
    cases dir with
    | up => simp only [computeNewIndex]; omega
    | down => simp only [computeNewIndex]; omega

theorem c3_clamped_index_and_boundary_noops_witness :
    canonical [{ moneyboxId := 1, priority := 1 },
      { moneyboxId := 2, priority := 2 }] ∧
    (ids [{ moneyboxId := 1, priority := 1 },
      { moneyboxId := 2, priority := 2 }]).Nodup ∧
    ([{ moneyboxId := 1, priority := 1 },
      { moneyboxId := 2, priority := 2 }] : List PriorityEntry) ≠ [] ∧
    (0 : Int) ≤ 3 ∧
    ((∀ (dir : MoveDirection) (i : Nat),
      i < ([{ moneyboxId := 1, priority := 1 },
        { moneyboxId := 2, priority := 2 }] : List PriorityEntry).length →
      0 ≤ computeNewIndex dir i 2 3 ∧ computeNewIndex dir i 2 3 ≤ 2 - 1) ∧
    buildPatchData [{ moneyboxId := 1, priority := 1 },
        { moneyboxId := 2, priority := 2 }] 1 MoveDirection.up 3
      = .ok [{ moneyboxId := 1, priority := 1 },
          { moneyboxId := 2, priority := 2 }] ∧
    buildPatchData [{ moneyboxId := 1, priority := 1 },
        { moneyboxId := 2, priority := 2 }] 2 MoveDirection.down 3
      = .ok [{ moneyboxId := 1, priority := 1 },
          { moneyboxId := 2, priority := 2 }] ∧
    (∀ (mId : Int) (dir : MoveDirection),
      mId ∈ ids [{ moneyboxId := 1, priority := 1 },
        { moneyboxId := 2, priority := 2 }] →
      buildPatchData [{ moneyboxId := 1, priority := 1 },
          { moneyboxId := 2, priority := 2 }] mId dir 0
        = .ok [{ moneyboxId := 1, priority := 1 },
            { moneyboxId := 2, priority := 2 }])) :=
  ⟨by rfl, by decide, by decide, by decide,
    c3_clamped_index_and_boundary_noops
      [{ moneyboxId := 1, priority := 1 }, { moneyboxId := 2, priority := 2 }]
      (by rfl) (by decide) (by decide) 3 (by decide)⟩

theorem eraseIdx_insertIdx_shift {α : Type} (L : List α) (x : α)
    (i k : Nat) (h : i + k < L.length) :
    (L.eraseIdx i).insertIdx (i + k) x
      = L.take i ++ ((L.drop (i + 1)).take k ++ x :: L.drop (i + 1 + k)) := by
  rw [List.eraseIdx_eq_take_drop_succ]
  rw [insertIdx_eq_take_cons_drop x (i + k) _ (by
    rw [List.length_append, List.length_take, List.length_drop]
    omega)]
  rw [List.take_append_eq_append_take, List.drop_append_eq_append_drop,
    List.take_take]
  have h1 : min (i + k) i = i := by omega
  have h2 : (List.take i L).length = i := by
    rw [List.length_take]
    omega
  have h3 : i + k - i = k := by omega
  have h4 : List.drop (i + k) (List.take i L) = [] :=
    List.drop_eq_nil_of_le (by rw [List.length_take]; omega)
  rw [h1, h2, h3, h4, List.drop_drop]
  simp [List.append_assoc]

/-- C4: the move is a list move, not a swap: on a canonical list the planner
removes the target entry at index i and reinserts it at the clamped new
index, shifting every entry between the old and new positions by one, so
for an unclamped down-move by k the output identifier order is the prefix
before i, then the k identifiers that followed the target, then the target,
then the remainder; concretely, [(A,1),(B,2),(C,3),(D,4)] with B moved down
2 yields [(A,1),(C,2),(D,3),(B,4)]. -/
theorem c4_list_move_not_swap :
    (∀ (l : List PriorityEntry), canonical l → (ids l).Nodup →
      ∀ (i k : Nat) (hik : i + k < l.length),
        ∃ payload,
          buildPatchData l ((l[i]).moneyboxId)
              MoveDirection.down (k : Int) = .ok payload ∧
          ids payload
            = (ids l).take i ++ (((ids l).drop (i + 1)).take k
                ++ (l[i]).moneyboxId :: (ids l).drop (i + 1 + k))) ∧
    buildPatchData [{ moneyboxId := 1, priority := 1 },
        { moneyboxId := 2, priority := 2 },
        { moneyboxId := 3, priority := 3 },
        { moneyboxId := 4, priority := 4 }] 2 MoveDirection.down 2
      = .ok [{ moneyboxId := 1, priority := 1 },
          { moneyboxId := 3, priority := 2 },
          { moneyboxId := 4, priority := 3 },
          { moneyboxId := 2, priority := 4 }] := by
  constructor
  · intro l hc hnd i k hik
    have hi : i < l.length := by omega
    have hf := findIdx_of_nodup l hnd i hi
    rw [buildPatchData_of_findIdx l _ (sortByPriority_of_canonical hc) i hf
      MoveDirection.down (k : Int)]
    have hidx : computeNewIndex MoveDirection.down i l.length (k : Int)
        = ((i + k : Nat) : Int) := by
      simp only [computeNewIndex]
      omega
    rw [hidx]
    rw [pyInsert_eq_insertIdx _ _ _ (by omega)
      (by rw [List.length_eraseIdx_of_lt hi]; push_cast; omega)]
    have hti : (((i + k : Nat) : Int)).toNat = i + k := by omega
    rw [hti]
    refine ⟨_, rfl, ?_⟩
    rw [ids_renumber, ids_insertIdx, ids_eraseIdx, ids_getD]
    rw [eraseIdx_insertIdx_shift (ids l) _ i k (by rw [ids_length]; omega)]
    have hgd : (ids l).getD i 0 = (l[i]).moneyboxId := by
      rw [getD_eq_getElem_of_lt (ids l) 0 i (by rw [ids_length]; omega)]
      simp [ids]
    rw [hgd]
  · have hsort : sortByPriority [{ moneyboxId := 1, priority := 1 },
        { moneyboxId := 2, priority := 2 },
        { moneyboxId := 3, priority := 3 },
        { moneyboxId := 4, priority := 4 }]
        = [{ moneyboxId := 1, priority := 1 },
            { moneyboxId := 2, priority := 2 },
            { moneyboxId := 3, priority := 3 },
            { moneyboxId := 4, priority := 4 }] :=
      List.mergeSort_of_sorted (by decide)
    rw [buildPatchData_of_findIdx _ 2 hsort 1 (by decide)
      MoveDirection.down 2]
    rfl

theorem c4_list_move_not_swap_witness :
    canonical [{ moneyboxId := 1, priority := 1 },
      { moneyboxId := 2, priority := 2 },
      { moneyboxId := 3, priority := 3 }] ∧
    (ids [{ moneyboxId := 1, priority := 1 },
      { moneyboxId := 2, priority := 2 },
      { moneyboxId := 3, priority := 3 }]).Nodup ∧
    (0 + 2 < ([{ moneyboxId := 1, priority := 1 },
      { moneyboxId := 2, priority := 2 },
      { moneyboxId := 3, priority := 3 }] : List PriorityEntry).length) ∧
    (∃ payload,
      buildPatchData [{ moneyboxId := 1, priority := 1 },
          { moneyboxId := 2, priority := 2 },
          { moneyboxId := 3, priority := 3 }] 1
          MoveDirection.down ((2 : Nat) : Int) = .ok payload ∧
      ids payload
        = (ids [{ moneyboxId := 1, priority := 1 },
            { moneyboxId := 2, priority := 2 },
            { moneyboxId := 3, priority := 3 }]).take 0
          ++ (((ids [{ moneyboxId := 1, priority := 1 },
              { moneyboxId := 2, priority := 2 },
              { moneyboxId := 3, priority := 3 }]).drop (0 + 1)).take 2
            ++ (1 : Int) :: (ids [{ moneyboxId := 1, priority := 1 },
              { moneyboxId := 2, priority := 2 },
              { moneyboxId := 3, priority := 3 }]).drop (0 + 1 + 2))) :=
  ⟨by rfl, by decide, by decide,
    (c4_list_move_not_swap.1
      [{ moneyboxId := 1, priority := 1 },
       { moneyboxId := 2, priority := 2 },
       { moneyboxId := 3, priority := 3 }]
      (by rfl) (by decide) 0 2 (by decide))⟩

theorem roundtrip_core (l : List PriorityEntry) (hc : canonical l)
    (hnd : (ids l).Nodup) (i j : Nat) (hi : i < l.length) (hj : j < l.length)
    (dir1 dir2 : MoveDirection) (s : Int)
    (hidx1 : computeNewIndex dir1 i l.length s = (j : Int))
    (hidx2 : computeNewIndex dir2 j l.length s = (i : Int)) :
    ∃ l2, buildPatchData l ((l[i]).moneyboxId) dir1 s = .ok l2 ∧
      buildPatchData l2 ((l[i]).moneyboxId) dir2 s = .ok l := by
  have hidsl : (ids l).length = l.length := ids_length l
  have herlen : (l.eraseIdx i).length = l.length - 1 :=
    List.length_eraseIdx_of_lt hi
  have hjle : j ≤ (l.eraseIdx i).length := by omega
  have hf1 := findIdx_of_nodup l hnd i hi
  have he1 : buildPatchData l ((l[i]).moneyboxId) dir1 s
      = .ok (renumber ((l.eraseIdx i).insertIdx j (l.getD i defaultEntry))) := by
    rw [buildPatchData_of_findIdx l _ (sortByPriority_of_canonical hc) i hf1
      dir1 s, hidx1]
    rw [pyInsert_eq_insertIdx _ _ _ (by omega) (by rw [herlen]; omega)]
    have htj : ((j : Int)).toNat = j := by omega
    rw [htj]
  refine ⟨_, he1, ?_⟩
  have hmlen : ((l.eraseIdx i).insertIdx j (l.getD i defaultEntry)).length
      = l.length := by
    rw [List.length_insertIdx j _ hjle, herlen]
    omega
  have hIer : ((ids l).eraseIdx i).length = l.length - 1 := by
    rw [List.length_eraseIdx_of_lt (by omega), hidsl]
  have hIjle : j ≤ ((ids l).eraseIdx i).length := by omega
  have hids_m : ids ((l.eraseIdx i).insertIdx j (l.getD i defaultEntry))
      = ((ids l).eraseIdx i).insertIdx j ((ids l).getD i 0) := by
    rw [ids_insertIdx, ids_eraseIdx, ids_getD]
  have hperm_m : List.Perm ((l.eraseIdx i).insertIdx j (l.getD i defaultEntry)) l :=
    (insertIdx_perm_cons _ j _ hjle).trans
      (getD_cons_eraseIdx_perm defaultEntry l i hi)
  have hc2 : canonical
      (renumber ((l.eraseIdx i).insertIdx j (l.getD i defaultEntry))) :=
    canonical_renumber _
  have hids_l2 : ids (renumber ((l.eraseIdx i).insertIdx j (l.getD i defaultEntry)))
      = ((ids l).eraseIdx i).insertIdx j ((ids l).getD i 0) := by
    rw [ids_renumber, hids_m]
  have hnd2 : (ids (renumber
      ((l.eraseIdx i).insertIdx j (l.getD i defaultEntry)))).Nodup := by
    rw [ids_renumber, hids_m, ← ids_getD, ← ids_eraseIdx, ← ids_insertIdx]
    exact ((hperm_m.map PriorityEntry.moneyboxId).nodup_iff).2 hnd
  have hl2len : (renumber
      ((l.eraseIdx i).insertIdx j (l.getD i defaultEntry))).length = l.length := by
    rw [renumber_length, hmlen]
  have hj2 : j < (renumber
      ((l.eraseIdx i).insertIdx j (l.getD i defaultEntry))).length := by
    omega
  have hMins : (((ids l).eraseIdx i).insertIdx j ((ids l).getD i 0)).length
      = l.length := by
    rw [List.length_insertIdx j _ hIjle, hIer]
    omega
  have hMj : (((ids l).eraseIdx i).insertIdx j ((ids l).getD i 0)).getD j 0
      = (ids l).getD i 0 := by
    rw [getD_eq_getElem_of_lt _ _ j (by rw [hMins]; omega)]
    exact List.getElem_insertIdx_self _ _ j hIjle
  have htarget : ((renumber
        ((l.eraseIdx i).insertIdx j (l.getD i defaultEntry)))[j]).moneyboxId
      = (l[i]).moneyboxId := by
    have h1 : (ids (renumber
        ((l.eraseIdx i).insertIdx j (l.getD i defaultEntry)))).getD j 0
        = ((renumber
            ((l.eraseIdx i).insertIdx j (l.getD i defaultEntry)))[j]).moneyboxId := by
      rw [getD_eq_getElem_of_lt _ _ j (by rw [ids_renumber, ← ids_renumber, ids_length]; exact hj2)]
      simp [ids]
    rw [← h1, hids_l2, hMj, getD_eq_getElem_of_lt _ _ i (by omega)]
    simp [ids]
  have hf2 : (renumber
      ((l.eraseIdx i).insertIdx j (l.getD i defaultEntry))).findIdx?
      (fun e => e.moneyboxId == (l[i]).moneyboxId) = some j := by
    have h0 := findIdx_of_nodup _ hnd2 j hj2
    rw [htarget] at h0
    exact h0
  have he2 : buildPatchData (renumber
      ((l.eraseIdx i).insertIdx j (l.getD i defaultEntry)))
      ((l[i]).moneyboxId) dir2 s
      = .ok (renumber (((renumber
          ((l.eraseIdx i).insertIdx j (l.getD i defaultEntry))).eraseIdx j).insertIdx i
          ((renumber ((l.eraseIdx i).insertIdx j (l.getD i defaultEntry))).getD j
            defaultEntry))) := by
    rw [buildPatchData_of_findIdx _ _ (sortByPriority_of_canonical hc2) j hf2
      dir2 s]
    rw [show computeNewIndex dir2 j (renumber
        ((l.eraseIdx i).insertIdx j (l.getD i defaultEntry))).length s = (i : Int) from by
      rw [hl2len]; exact hidx2]
    rw [pyInsert_eq_insertIdx _ _ _ (by omega)
      (by rw [List.length_eraseIdx_of_lt hj2]; push_cast; omega)]
    have hti : ((i : Int)).toNat = i := by omega
    rw [hti]
  rw [he2]
  have hids_m2 : ids (((renumber
      ((l.eraseIdx i).insertIdx j (l.getD i defaultEntry))).eraseIdx j).insertIdx i
      ((renumber ((l.eraseIdx i).insertIdx j (l.getD i defaultEntry))).getD j
        defaultEntry)) = ids l := by
    rw [ids_insertIdx, ids_eraseIdx, ids_getD, hids_l2]
    rw [List.eraseIdx_insertIdx j ((ids l).eraseIdx i), hMj]
    exact insertIdx_getD_eraseIdx 0 (ids l) i (by omega)
  rw [renumber_eq_of_ids_eq _ _ hids_m2, show renumber l = l from hc]

/-- C5: round trip: on a canonical list with distinct identifiers, moving
the target at index i by s steps in one direction and then feeding the
planner's output back in and moving the same target by s steps in the
opposite direction restores the original list, provided neither move is
clamped at a boundary (down-then-up needs i + s within the list,
up-then-down needs s ≤ i). -/
theorem c5_roundtrip_restores_order (l : List PriorityEntry)
    (hc : canonical l) (hnd : (ids l).Nodup)
    (i : Nat) (hi : i < l.length) (s : Nat) :
    (i + s < l.length →
      ∃ l2, buildPatchData l ((l[i]).moneyboxId) MoveDirection.down
          ((s : Nat) : Int) = .ok l2 ∧
        buildPatchData l2 ((l[i]).moneyboxId) MoveDirection.up
          ((s : Nat) : Int) = .ok l) ∧
    (s ≤ i →
      ∃ l2, buildPatchData l ((l[i]).moneyboxId) MoveDirection.up
          ((s : Nat) : Int) = .ok l2 ∧
        buildPatchData l2 ((l[i]).moneyboxId) MoveDirection.down
          ((s : Nat) : Int) = .ok l) := by
  constructor
  · intro hno
    exact roundtrip_core l hc hnd i (i + s) hi (by omega)
      MoveDirection.down MoveDirection.up ((s : Nat) : Int)
      (by simp only [computeNewIndex]; omega)
      (by simp only [computeNewIndex]; omega)
  · intro hno
    exact roundtrip_core l hc hnd i (i - s) hi (by omega)
      MoveDirection.up MoveDirection.down ((s : Nat) : Int)
      (by simp only [computeNewIndex]; omega)
      (by simp only [computeNewIndex]; omega)

theorem c5_roundtrip_restores_order_witness :
    canonical [{ moneyboxId := 1, priority := 1 },
      { moneyboxId := 2, priority := 2 }] ∧
    (ids [{ moneyboxId := 1, priority := 1 },
      { moneyboxId := 2, priority := 2 }]).Nodup ∧
    0 < ([{ moneyboxId := 1, priority := 1 },
      { moneyboxId := 2, priority := 2 }] : List PriorityEntry).length ∧
    ((0 + 1 < ([{ moneyboxId := 1, priority := 1 },
        { moneyboxId := 2, priority := 2 }] : List PriorityEntry).length →
      ∃ l2, buildPatchData [{ moneyboxId := 1, priority := 1 },
          { moneyboxId := 2, priority := 2 }] 1 MoveDirection.down
          ((1 : Nat) : Int) = .ok l2 ∧
        buildPatchData l2 1 MoveDirection.up ((1 : Nat) : Int)
          = .ok [{ moneyboxId := 1, priority := 1 },
              { moneyboxId := 2, priority := 2 }]) ∧
    ((1 : Nat) ≤ 0 →
      ∃ l2, buildPatchData [{ moneyboxId := 1, priority := 1 },
          { moneyboxId := 2, priority := 2 }] 1 MoveDirection.up
          ((1 : Nat) : Int) = .ok l2 ∧
        buildPatchData l2 1 MoveDirection.down ((1 : Nat) : Int)
          = .ok [{ moneyboxId := 1, priority := 1 },
              { moneyboxId := 2, priority := 2 }])) :=
  ⟨by rfl, by decide, by decide,
    c5_roundtrip_restores_order
      [{ moneyboxId := 1, priority := 1 }, { moneyboxId := 2, priority := 2 }]
      (by rfl) (by decide) 0 (by decide) 1⟩

end SavingsManagerCli
